import Mathlib

/-
Shallow embedding of src/backend/ai_generator.py: the round-bounded
tool-calling orchestration loop (ToolCallState and AIGenerator).
The backend (anthropic client) is modelled as an oracle indexed by the
number of calls made so far; tool execution failures are modelled with
Except; the mutable ToolCallState is threaded explicitly and is returned
even on the failure paths, mirroring in-place mutation in the source.
-/

/-- Parameter mapping passed to a tool (Dict[str, Any] in the source);
values are modelled as plain strings, never inspected by the core. -/
abbrev Params := List (String × String)

/-- A content block of a backend response: a plain text block or a
tool-invocation block (name, unique id, parameter mapping). -/
inductive ContentBlock where
  | text (t : String)
  | tool_use (id : String) (name : String) (input : Params)
deriving DecidableEq, Repr

/-- A backend response: stop reason string and a list of content blocks. -/
structure Response where
  stop_reason : String
  content : List ContentBlock
deriving DecidableEq, Repr

/-- A tool-result entry assembled into the user message after a tool round
(the dict with type, tool_use_id and content built in the source). -/
structure ToolResult where
  tool_use_id : String
  content : String
deriving DecidableEq, Repr

/-- Content of a transcript message: the raw query text, the assistant
content blocks, or the list of tool results. -/
inductive MessageContent where
  | text (s : String)
  | blocks (bs : List ContentBlock)
  | tool_results (rs : List ToolResult)
deriving DecidableEq, Repr

/-- A transcript message: role plus content. -/
structure Message where
  role : String
  content : MessageContent
deriving DecidableEq, Repr

/-- A tool definition offered to the model. -/
structure ToolDef where
  name : String
  description : String
deriving DecidableEq, Repr

/-- The tool manager collaborator: execute_tool returns result text or
raises, modelled with Except. -/
abbrev ToolManager := String → Params → Except String String

/-- An API request as assembled in the source: the pre-built base
parameters (model, temperature, max_tokens) together with messages,
system text, and the optional tool list and tool-selection mode. -/
structure Request where
  model : String
  temperature : Int
  max_tokens : Nat
  messages : List Message
  system : String
  tools : Option (List ToolDef)
  tool_choice : Option String
deriving DecidableEq, Repr

/-- One entry of ToolCallState.tool_calls_made. -/
structure ToolCallRecord where
  round : Nat
  tool : String
  params : Params
  result_length : Nat
deriving DecidableEq, Repr

/-- Tracks the state of tool calls across multiple rounds
(class ToolCallState in the source). -/
structure ToolCallState where
  max_rounds : Nat
  current_round : Nat
  tool_calls_made : List ToolCallRecord
deriving DecidableEq, Repr

/-- The constructor of ToolCallState: max_rounds as given, current_round
starts at 0, empty invocation log. -/
def ToolCallState.init (max_rounds : Nat) : ToolCallState :=
  { max_rounds := max_rounds, current_round := 0, tool_calls_made := [] }

/-- Check if more tool calls can be made. -/
def ToolCallState.can_make_more_calls (s : ToolCallState) : Bool :=
  s.current_round < s.max_rounds

/-- Increment the current round counter. -/
def ToolCallState.increment_round (s : ToolCallState) : ToolCallState :=
  { s with current_round := s.current_round + 1 }

/-- Record a tool call that was made; result_length is computed with the
Python truthiness idiom: len result if result else 0. -/
def ToolCallState.add_tool_call (s : ToolCallState) (tool_name : String)
    (params : Params) (result : Option String) : ToolCallState :=
  { s with tool_calls_made := s.tool_calls_made ++
      [{ round := s.current_round, tool := tool_name, params := params,
         result_length := match result with
           | some r => if r = "" then 0 else r.length
           | none => 0 }] }

/-- The generator: api_key and model as configured, plus the backend
oracle (client.messages.create), indexed by how many backend calls were
made before. -/
structure AIGenerator where
  api_key : String
  model : String
  client : Nat → Response

/-- Abridged first sentence of the static SYSTEM_PROMPT of the source;
no claim depends on the prompt text, only on where it is placed. -/
def AIGenerator.SYSTEM_PROMPT : String :=
  "You are an AI assistant specialized in course materials and educational content with access to comprehensive tools for course information."

/-- Pre-built base API parameters (built once in the constructor). -/
def AIGenerator.base_params (g : AIGenerator) : Request :=
  { model := g.model, temperature := 0, max_tokens := 800,
    messages := [], system := "", tools := none, tool_choice := none }

/-- Assemble a full request from the base parameters plus messages,
system text and the optional tools and tool-selection mode. -/
def mkApiParams (g : AIGenerator) (messages : List Message) (system : String)
    (tools : Option (List ToolDef)) (tool_choice : Option String) : Request :=
  { g.base_params with
    messages := messages
    system := system
    tools := tools
    tool_choice := tool_choice }

/-- Python truthiness of the Optional[List] tools argument: None and the
empty list are both falsy. -/
def optListTruthy (t : Option (List ToolDef)) : Bool :=
  match t with
  | none => false
  | some l => !l.isEmpty

/-- Python truthiness of an optional string: None and the empty string
are both falsy. -/
def optStrTruthy (s : Option String) : Bool :=
  match s with
  | none => false
  | some t => t != ""

/-- System content assembly at the top of generate_response: the static
prompt, with the previous conversation appended under a delimited heading
when the history argument is truthy. -/
def build_system_content (conversation_history : Option String) : String :=
  if optStrTruthy conversation_history then
    AIGenerator.SYSTEM_PROMPT ++ "\n\nPrevious conversation:\n" ++
      conversation_history.getD ""
  else
    AIGenerator.SYSTEM_PROMPT

/-- Models response.content[0].text: IndexError on empty content and
AttributeError when the first block is a tool-invocation block, both
modelled as propagating failures. -/
def firstText : List ContentBlock → Except String String
  | [] => .error "IndexError: list index out of range"
  | ContentBlock.text t :: _ => .ok t
  | ContentBlock.tool_use _ _ _ :: _ => .error "AttributeError: no text on a tool block"

/-- Models tool_manager.execute_tool: calling through a missing manager
is an AttributeError, otherwise the manager runs (and may raise). -/
def callExecuteTool (tm : Option ToolManager) (name : String) (input : Params) :
    Except String String :=
  match tm with
  | none => .error "AttributeError: NoneType has no attribute execute_tool"
  | some f => f name input

/-- The for-loop of _execute_tool_round over the content blocks: text
blocks are skipped; each tool_use block is executed (a raise propagates
and aborts the rest), recorded, and its result appended in order. The
state is returned also on failure, mirroring in-place mutation. -/
def execBlocks (tm : Option ToolManager) :
    List ContentBlock → ToolCallState → List ToolResult → Bool →
    Except String (List ToolResult × Bool) × ToolCallState
  | [], st, tool_results, tools_executed => (.ok (tool_results, tools_executed), st)
  | ContentBlock.text _ :: rest, st, tool_results, tools_executed =>
      execBlocks tm rest st tool_results tools_executed
  | ContentBlock.tool_use id name input :: rest, st, tool_results, _tools_executed =>
      match callExecuteTool tm name input with
      | .error e => (.error e, st)
      | .ok tool_result =>
          execBlocks tm rest (st.add_tool_call name input (some tool_result))
            (tool_results ++ [{ tool_use_id := id, content := tool_result }]) true

/-- Execute a round of tool calls and update message history
(_execute_tool_round in the source): append the assistant message holding
the raw content blocks, run every tool_use block in order, and append the
collected tool results as a single user message when non-empty. -/
def _execute_tool_round (tm : Option ToolManager) (response : Response)
    (messages : List Message) (tool_state : ToolCallState) :
    Except String (List Message × Bool) × ToolCallState :=
  let updated_messages := messages ++
    [{ role := "assistant", content := MessageContent.blocks response.content }]
  match execBlocks tm response.content tool_state [] false with
  | (.error e, st) => (.error e, st)
  | (.ok (tool_results, tools_executed), st) =>
      if tool_results.isEmpty then (.ok (updated_messages, tools_executed), st)
      else
        (.ok (updated_messages ++
          [{ role := "user", content := MessageContent.tool_results tool_results }],
          tools_executed), st)

/-- Make a final API call without tools to generate the synthesis
response (_make_final_response in the source); returns the response text
(or the propagated failure) together with the request it issued. -/
def _make_final_response (g : AIGenerator) (call_index : Nat)
    (messages : List Message) (system_content : String) :
    Except String String × Request :=
  let final_params := mkApiParams g messages system_content none none
  let final_response := g.client call_index
  (firstText final_response.content, final_params)

/-- How the while-loop of generate_response was left. -/
inductive LoopOutcome where
  | short_circuit (text : String)
  | fall_through
  | failed (e : String)
deriving DecidableEq, Repr

/-- The while-loop of generate_response: while more calls can be made,
build the request (offering tools exactly when both the tools list and
the tool manager are truthy), dispatch it, and either short-circuit on a
natural stop, execute the tool round and continue, break on a tool_use
response that executed no tool, or propagate a failure. Returns the
outcome, the requests issued, the tracker state and the messages. -/
def runLoop (g : AIGenerator) (tools : Option (List ToolDef))
    (tm : Option ToolManager) (system_content : String)
    (messages : List Message) (tool_state : ToolCallState)
    (reqs : List Request) :
    LoopOutcome × List Request × ToolCallState × List Message :=
  if h : tool_state.can_make_more_calls then
    let offer := optListTruthy tools && tm.isSome
    let api_params := mkApiParams g messages system_content
      (if offer then tools else none) (if offer then some "auto" else none)
    let response := g.client reqs.length
    if response.stop_reason = "tool_use" then
      match hr : _execute_tool_round tm response messages tool_state with
      | (.error e, st) => (.failed e, reqs ++ [api_params], st, messages)
      | (.ok (messages2, tools_executed), st) =>
          if tools_executed then
            runLoop g tools tm system_content messages2 st.increment_round
              (reqs ++ [api_params])
          else
            (.fall_through, reqs ++ [api_params], st, messages2)
    else
      match firstText response.content with
      | .ok t => (.short_circuit t, reqs ++ [api_params], tool_state, messages)
      | .error e => (.failed e, reqs ++ [api_params], tool_state, messages)
  else
    (.fall_through, reqs, tool_state, messages)
termination_by tool_state.max_rounds - tool_state.current_round
decreasing_by
  have key : ∀ (bs : List ContentBlock) (s : ToolCallState)
      (acc : List ToolResult) (ex : Bool),
      (execBlocks tm bs s acc ex).2.current_round = s.current_round ∧
      (execBlocks tm bs s acc ex).2.max_rounds = s.max_rounds := by
    intro bs
    induction bs with
    | nil => intro s acc ex; simp [execBlocks]
    | cons b rest ih =>
      intro s acc ex
      cases b with
      | text t => simpa [execBlocks] using ih s acc ex
      | tool_use id name input =>
        cases hc : callExecuteTool tm name input with
        | error e => simp [execBlocks, hc]
        | ok r =>
          have := ih (s.add_tool_call name input (some r))
            (acc ++ [{ tool_use_id := id, content := r }]) true
          simpa [execBlocks, hc, ToolCallState.add_tool_call] using this
  have hkey := key response.content tool_state [] false
  unfold _execute_tool_round at hr
  simp only at hr
  rcases hx : execBlocks tm response.content tool_state [] false with ⟨res, st2⟩
  rw [hx] at hr hkey
  simp only at hkey
  rcases res with e | ⟨tr, ex⟩
  · simp at hr
  · rcases hkey with ⟨hk1, hk2⟩
    by_cases hemp : tr.isEmpty <;> simp [hemp] at hr <;>
      · rcases hr with ⟨-, hst⟩
        subst hst
        simp only [ToolCallState.can_make_more_calls, decide_eq_true_eq] at h
        simp only [ToolCallState.increment_round]
        omega

/-- Generate AI response with optional sequential tool usage and
conversation context (generate_response in the source). Returns the
answer text or propagated failure, the full list of backend requests
issued, the final tracker state and the final message list. -/
def AIGenerator.generate_response (g : AIGenerator) (query : String)
    (conversation_history : Option String) (tools : Option (List ToolDef))
    (tool_manager : Option ToolManager) (max_tool_rounds : Nat) :
    Except String String × List Request × ToolCallState × List Message :=
  let system_content := build_system_content conversation_history
  let messages : List Message := [{ role := "user", content := MessageContent.text query }]
  let tool_state := ToolCallState.init max_tool_rounds
  match runLoop g tools tool_manager system_content messages tool_state [] with
  | (.short_circuit t, reqs, st, msgs) => (.ok t, reqs, st, msgs)
  | (.failed e, reqs, st, msgs) => (.error e, reqs, st, msgs)
  | (.fall_through, reqs, st, msgs) =>
      let out := _make_final_response g reqs.length msgs system_content
      (out.1, reqs ++ [out.2], st, msgs)

/-- The invocation ids of the tool_use blocks of a content list, in
order. -/
def toolUseIds (bs : List ContentBlock) : List String :=
  bs.filterMap fun b => match b with
    | ContentBlock.tool_use id _ _ => some id
    | ContentBlock.text _ => none

/-- The transcript chain of the requests the loop issues from call index
k onward, starting from the transcript msgs accumulated so far: the first
request carries exactly msgs, and every later request carries exactly its
predecessor request transcript extended by the two messages of the round
in between, namely the assistant message holding the content blocks of
the response to the predecessor request and the user message holding the
tool results obtained by running the block loop on that content (so the
results are pinned to that round, one per tool_use block). -/
def TranscriptChain (g : AIGenerator) (tm : Option ToolManager) :
    Nat → List Message → List Request → Prop
  | _, _, [] => True
  | k, msgs, req :: rest =>
      req.messages = msgs ∧
      (rest = [] ∨
       ∃ (results : List ToolResult) (stA stB : ToolCallState),
         execBlocks tm (g.client k).content stA [] false =
           (.ok (results, true), stB) ∧
         TranscriptChain g tm (k + 1)
           (msgs ++
            [{ role := "assistant",
               content := MessageContent.blocks (g.client k).content },
             { role := "user",
               content := MessageContent.tool_results results }])
           rest)

/-- Facts established about one run of the loop, relative to the state
and request list it started from. -/
structure LoopFacts (g : AIGenerator) (tools : Option (List ToolDef))
    (tm : Option ToolManager) (sys : String) (msgs : List Message)
    (st : ToolCallState) (reqs : List Request)
    (out : LoopOutcome) (R : List Request) (S : ToolCallState) : Prop where
  max_eq : S.max_rounds = st.max_rounds
  round_ge : st.current_round ≤ S.current_round
  round_le : S.current_round ≤ st.max_rounds
  trace_lower : reqs.length + (S.current_round - st.current_round) ≤ R.length
  trace_upper : R.length ≤ reqs.length + (S.current_round - st.current_round) + 1
  trace_bound : R.length ≤ reqs.length + (st.max_rounds - st.current_round)
  rounds_logged : ∀ r, st.current_round ≤ r → r < S.current_round →
      ∃ rec ∈ S.tool_calls_made, rec.round = r
  log_grows : ∃ recs, S.tool_calls_made = st.tool_calls_made ++ recs
  reqs_shape : ∀ req ∈ R, req ∈ reqs ∨
      ((∃ tail, req.messages = msgs ++ tail) ∧
       req.model = g.model ∧ req.temperature = 0 ∧ req.max_tokens = 800 ∧
       req.system = sys ∧
       (((optListTruthy tools && tm.isSome) = true ∧ req.tools = tools ∧
          req.tool_choice = some "auto") ∨
        ((optListTruthy tools && tm.isSome) = false ∧ req.tools = none ∧
          req.tool_choice = none)))
  fall_shape : out = LoopOutcome.fall_through →
      (S.current_round = st.max_rounds ∧
        R.length = reqs.length + (S.current_round - st.current_round)) ∨
      (S.current_round < st.max_rounds ∧
        R.length = reqs.length + (S.current_round - st.current_round) + 1)
  reqs_prefix : ∃ newreqs, R = reqs ++ newreqs
  trans_chain : TranscriptChain g tm reqs.length msgs (R.drop reqs.length)

/-- On success, the block loop preserves the round counters, appends one
record per tool_use block (each stamped with the current round), returns
one result per tool_use block with matching ids in order, and reports
whether any tool ran. -/
theorem execBlocks_ok (tm : Option ToolManager) :
    ∀ (bs : List ContentBlock) (st : ToolCallState) (acc : List ToolResult)
      (ex : Bool) (res : List ToolResult) (ex2 : Bool) (st2 : ToolCallState),
      execBlocks tm bs st acc ex = (.ok (res, ex2), st2) →
      st2.current_round = st.current_round ∧
      st2.max_rounds = st.max_rounds ∧
      res.map ToolResult.tool_use_id = acc.map ToolResult.tool_use_id ++ toolUseIds bs ∧
      (∃ recs, st2.tool_calls_made = st.tool_calls_made ++ recs ∧
        recs.length = (toolUseIds bs).length ∧
        ∀ rec ∈ recs, rec.round = st.current_round) ∧
      ex2 = (ex || !(toolUseIds bs).isEmpty) := by
  intro bs
  induction bs with
  | nil =>
    intro st acc ex res ex2 st2 heq
    simp only [execBlocks, Prod.mk.injEq, Except.ok.injEq] at heq
    rcases heq with ⟨⟨h1, h2⟩, h3⟩
    subst h1; subst h2; subst h3
    simp [toolUseIds]
  | cons b rest ih =>
    intro st acc ex res ex2 st2 heq
    cases b with
    | text t =>
      have h := ih st acc ex res ex2 st2 (by simpa [execBlocks] using heq)
      simpa [toolUseIds] using h
    | tool_use id name input =>
      cases hc : callExecuteTool tm name input with
      | error e => simp [execBlocks, hc] at heq
      | ok r =>
        simp only [execBlocks, hc] at heq
        have h := ih (st.add_tool_call name input (some r))
          (acc ++ [{ tool_use_id := id, content := r }]) true res ex2 st2 heq
        rcases h with ⟨h1, h2, h3, ⟨recs, hrecs, hlen, hround⟩, h5⟩
        refine ⟨by simpa [ToolCallState.add_tool_call] using h1,
          by simpa [ToolCallState.add_tool_call] using h2, ?_, ?_, ?_⟩
      
        · simpa [toolUseIds] using h3
        · refine ⟨{ round := st.current_round, tool := name, params := input,
                    result_length := if r = "" then 0 else r.length } :: recs, ?_, ?_, ?_⟩
          · simpa [ToolCallState.add_tool_call] using hrecs
          · simpa [toolUseIds] using hlen
          · intro rec hrec
            rcases List.mem_cons.mp hrec with h | h
            · subst h; rfl
            · simpa [ToolCallState.add_tool_call] using hround rec h
        · simpa [toolUseIds] using h5

/-- On a propagated tool failure, the block loop preserves the round
counters and only appends records stamped with the current round (those
of the successful calls made before the failure). -/
theorem execBlocks_error (tm : Option ToolManager) :
    ∀ (bs : List ContentBlock) (st : ToolCallState) (acc : List ToolResult)
      (ex : Bool) (e : String) (st2 : ToolCallState),
      execBlocks tm bs st acc ex = (.error e, st2) →
      st2.current_round = st.current_round ∧
      st2.max_rounds = st.max_rounds ∧
      ∃ recs, st2.tool_calls_made = st.tool_calls_made ++ recs ∧
        ∀ rec ∈ recs, rec.round = st.current_round := by
  intro bs
  induction bs with
  | nil =>
    intro st acc ex e st2 heq
    simp [execBlocks] at heq
  | cons b rest ih =>
    intro st acc ex e st2 heq
    cases b with
    | text t =>
      exact ih st acc ex e st2 (by simpa [execBlocks] using heq)
    | tool_use id name input =>
      cases hc : callExecuteTool tm name input with
      | error e2 =>
        simp only [execBlocks, hc, Prod.mk.injEq, Except.error.injEq] at heq
        rcases heq with ⟨h1, h2⟩
        subst h1; subst h2
        exact ⟨rfl, rfl, [], by simp, by simp⟩
      | ok r =>
        simp only [execBlocks, hc] at heq
        have h := ih (st.add_tool_call name input (some r))
          (acc ++ [{ tool_use_id := id, content := r }]) true e st2 heq
        rcases h with ⟨h1, h2, recs, hrecs, hround⟩
        refine ⟨by simpa [ToolCallState.add_tool_call] using h1,
          by simpa [ToolCallState.add_tool_call] using h2,
          { round := st.current_round, tool := name, params := input,
            result_length := (if r = "" then 0 else r.length) } :: recs, ?_, ?_⟩
        · simpa [ToolCallState.add_tool_call] using hrecs
        · intro rec hrec
          rcases List.mem_cons.mp hrec with h | h
          · subst h; rfl
          · simpa [ToolCallState.add_tool_call] using hround rec h

/-- The block loop over a concatenation first runs the left part and, if
no failure occurred, continues on the right part from where it stopped. -/
theorem execBlocks_append (tm : Option ToolManager) :
    ∀ (l1 l2 : List ContentBlock) (st : ToolCallState) (acc : List ToolResult)
      (ex : Bool),
      execBlocks tm (l1 ++ l2) st acc ex =
        match execBlocks tm l1 st acc ex with
        | (.ok (res, ex1), st1) => execBlocks tm l2 st1 res ex1
        | (.error e, st1) => (.error e, st1) := by
  intro l1
  induction l1 with
  | nil => intro l2 st acc ex; simp [execBlocks]
  | cons b rest ih =>
    intro l2 st acc ex
    cases b with
    | text t => simpa [execBlocks] using ih l2 st acc ex
    | tool_use id name input =>
      cases hc : callExecuteTool tm name input with
      | error e => simp [execBlocks, hc]
      | ok r => simpa [execBlocks, hc] using ih l2 _ _ _

/-- A successful tool round preserves the round counters; it appends the
assistant message, and exactly when some tool ran it also appends one
user message holding one result per tool_use block, ids in order; the
invocation log grows by one record per tool_use block, all stamped with
the current round; with no tool run, the state is returned unchanged. -/
theorem execute_tool_round_ok (tm : Option ToolManager) (response : Response)
    (messages : List Message) (st : ToolCallState) (msgs2 : List Message)
    (ex2 : Bool) (st2 : ToolCallState)
    (heq : _execute_tool_round tm response messages st = (.ok (msgs2, ex2), st2)) :
    st2.current_round = st.current_round ∧
    st2.max_rounds = st.max_rounds ∧
    (∃ recs, st2.tool_calls_made = st.tool_calls_made ++ recs ∧
      recs.length = (toolUseIds response.content).length ∧
      ∀ rec ∈ recs, rec.round = st.current_round) ∧
    ex2 = !(toolUseIds response.content).isEmpty ∧
    (ex2 = true → ∃ results : List ToolResult,
      msgs2 = messages ++
        [{ role := "assistant", content := MessageContent.blocks response.content },
         { role := "user", content := MessageContent.tool_results results }] ∧
      results.map ToolResult.tool_use_id = toolUseIds response.content ∧
      execBlocks tm response.content st [] false = (.ok (results, true), st2)) ∧
    (ex2 = false →
      msgs2 = messages ++
        [{ role := "assistant", content := MessageContent.blocks response.content }] ∧
      st2 = st) := by
  unfold _execute_tool_round at heq
  simp only at heq
  rcases hx : execBlocks tm response.content st [] false with ⟨r0, st3⟩
  rw [hx] at heq
  rcases r0 with e | ⟨tool_results, tools_executed⟩
  · simp at heq
  · have hblocks := execBlocks_ok tm response.content st [] false tool_results
      tools_executed st3 hx
    rcases hblocks with ⟨h1, h2, h3, ⟨recs, hrecs, hlen, hround⟩, h5⟩
    simp only [List.map_nil, List.nil_append, Bool.false_or] at h3 h5
    by_cases hemp : tool_results.isEmpty
    · simp only [hemp, if_true, Prod.mk.injEq, Except.ok.injEq] at heq
      rcases heq with ⟨⟨hm, hex⟩, hst⟩
      subst hm; subst hex; subst hst
      have hids : toolUseIds response.content = [] := by
        rw [← h3]
        simp [List.isEmpty_iff.mp hemp]
      refine ⟨h1, h2, ⟨recs, hrecs, hlen, hround⟩, by simp [h5, hids], ?_, ?_⟩
      · intro hcontra
        rw [h5, hids] at hcontra
        simp at hcontra
      · intro _
        refine ⟨rfl, ?_⟩
        have hnil : recs = [] := List.length_eq_zero.mp (by simp [hlen, hids])
        subst hnil
        cases st3; cases st
        simp_all
    · simp only [hemp, Bool.false_eq_true, if_false, Prod.mk.injEq,
        Except.ok.injEq] at heq
      rcases heq with ⟨⟨hm, hex⟩, hst⟩
      subst hm; subst hex; subst hst
      have hne : toolUseIds response.content ≠ [] := by
        rw [← h3]
        simp only [ne_eq, List.map_eq_nil_iff]
        exact fun hh => hemp (by simp [hh])
      refine ⟨h1, h2, ⟨recs, hrecs, hlen, hround⟩, ?_, ?_, ?_⟩
      · simp [h5, List.isEmpty_iff, hne]
      · intro hextrue
        rw [hextrue]
        exact ⟨tool_results, by simp, h3, rfl⟩
      · intro hcontra
        rw [h5] at hcontra
        simp only [Bool.not_eq_false', List.isEmpty_iff] at hcontra
        exact absurd hcontra hne

/-- A failing tool round returns the propagated failure, preserves the
round counters and only appends records stamped with the current round. -/
theorem execute_tool_round_error (tm : Option ToolManager) (response : Response)
    (messages : List Message) (st : ToolCallState) (e : String)
    (st2 : ToolCallState)
    (heq : _execute_tool_round tm response messages st = (.error e, st2)) :
    st2.current_round = st.current_round ∧
    st2.max_rounds = st.max_rounds ∧
    ∃ recs, st2.tool_calls_made = st.tool_calls_made ++ recs ∧
      ∀ rec ∈ recs, rec.round = st.current_round := by
  unfold _execute_tool_round at heq
  simp only at heq
  rcases hx : execBlocks tm response.content st [] false with ⟨r0, st3⟩
  rw [hx] at heq
  rcases r0 with e2 | ⟨tool_results, tools_executed⟩
  · simp only [Prod.mk.injEq, Except.error.injEq] at heq
    rcases heq with ⟨h1, h2⟩
    subst h1; subst h2
    exact execBlocks_error tm response.content st [] false _ _ hx
  · by_cases hemp : tool_results.isEmpty <;> simp [hemp] at heq

/-- The request assembled inside the loop has the shape the spec
describes: deterministic sampling, fixed output ceiling, the system text,
the accumulated messages, and tools with automatic selection exactly when
both the tool list and the manager are truthy. -/
theorem api_params_shape (g : AIGenerator) (tools : Option (List ToolDef))
    (tm : Option ToolManager) (sys : String) (msgs : List Message) :
    (∃ tail, (mkApiParams g msgs sys
        (if optListTruthy tools && tm.isSome then tools else none)
        (if optListTruthy tools && tm.isSome then some "auto" else none)).messages =
        msgs ++ tail) ∧
    (mkApiParams g msgs sys
        (if optListTruthy tools && tm.isSome then tools else none)
        (if optListTruthy tools && tm.isSome then some "auto" else none)).model = g.model ∧
    (mkApiParams g msgs sys
        (if optListTruthy tools && tm.isSome then tools else none)
        (if optListTruthy tools && tm.isSome then some "auto" else none)).temperature = 0 ∧
    (mkApiParams g msgs sys
        (if optListTruthy tools && tm.isSome then tools else none)
        (if optListTruthy tools && tm.isSome then some "auto" else none)).max_tokens = 800 ∧
    (mkApiParams g msgs sys
        (if optListTruthy tools && tm.isSome then tools else none)
        (if optListTruthy tools && tm.isSome then some "auto" else none)).system = sys ∧
    (((optListTruthy tools && tm.isSome) = true ∧
      (mkApiParams g msgs sys
        (if optListTruthy tools && tm.isSome then tools else none)
        (if optListTruthy tools && tm.isSome then some "auto" else none)).tools = tools ∧
      (mkApiParams g msgs sys
        (if optListTruthy tools && tm.isSome then tools else none)
        (if optListTruthy tools && tm.isSome then some "auto" else none)).tool_choice = some "auto") ∨
     ((optListTruthy tools && tm.isSome) = false ∧
      (mkApiParams g msgs sys
        (if optListTruthy tools && tm.isSome then tools else none)
        (if optListTruthy tools && tm.isSome then some "auto" else none)).tools = none ∧
      (mkApiParams g msgs sys
        (if optListTruthy tools && tm.isSome then tools else none)
        (if optListTruthy tools && tm.isSome then some "auto" else none)).tool_choice = none)) := by
  by_cases hoffer : (optListTruthy tools && tm.isSome) = true <;>
    simp [hoffer, mkApiParams, AIGenerator.base_params]

/-- Facts for the loop exits that issue exactly one request and do not
advance the round counter (short-circuit, break, propagated failure). -/
theorem LoopFacts_single (g : AIGenerator) (tools : Option (List ToolDef))
    (tm : Option ToolManager) (sys : String) (msgs : List Message)
    (st : ToolCallState) (reqs : List Request) (out : LoopOutcome)
    (S : ToolCallState)
    (hlt : st.current_round < st.max_rounds)
    (hc : S.current_round = st.current_round)
    (hm : S.max_rounds = st.max_rounds)
    (hgrow : ∃ recs, S.tool_calls_made = st.tool_calls_made ++ recs)
    (hfall : out = LoopOutcome.fall_through → S.current_round < st.max_rounds) :
    LoopFacts g tools tm sys msgs st reqs out
      (reqs ++ [mkApiParams g msgs sys
        (if optListTruthy tools && tm.isSome then tools else none)
        (if optListTruthy tools && tm.isSome then some "auto" else none)]) S := by
  refine ⟨hm, by omega, by omega,
    by simp only [List.length_append, List.length_cons, List.length_nil]; omega,
    by simp only [List.length_append, List.length_cons, List.length_nil]; omega,
    by simp only [List.length_append, List.length_cons, List.length_nil]; omega,
    ?_, hgrow, ?_, ?_, ⟨_, rfl⟩, ?_⟩
  · intro r h1 h2
    omega
  · intro req hreq
    rcases List.mem_append.mp hreq with h | h
    · exact Or.inl h
    · rw [List.mem_singleton] at h
      subst h
      exact Or.inr (api_params_shape g tools tm sys msgs)
  · intro hf
    refine Or.inr ⟨hfall hf, ?_⟩
    simp only [List.length_append, List.length_cons, List.length_nil]
    omega
  · rw [List.drop_left]
    exact ⟨rfl, Or.inl rfl⟩

/-- Main characterization of one run of the loop, by induction on the
remaining round budget. -/
theorem runLoop_facts (g : AIGenerator) (tools : Option (List ToolDef))
    (tm : Option ToolManager) (sys : String) :
    ∀ (n : Nat) (msgs : List Message) (st : ToolCallState) (reqs : List Request)
      (out : LoopOutcome) (R : List Request) (S : ToolCallState) (M : List Message),
      st.max_rounds - st.current_round = n →
      st.current_round ≤ st.max_rounds →
      runLoop g tools tm sys msgs st reqs = (out, R, S, M) →
      LoopFacts g tools tm sys msgs st reqs out R S := by
  intro n
  induction n with
  | zero =>
    intro msgs st reqs out R S M hn hinv heq
    have hguard : st.can_make_more_calls = false := by
      simp only [ToolCallState.can_make_more_calls, decide_eq_false_iff_not]
      omega
    rw [runLoop.eq_def] at heq
    simp only [hguard, Bool.false_eq_true, dite_false, Prod.mk.injEq] at heq
    obtain ⟨ho, hR, hS, hM⟩ := heq
    subst ho; subst hR; subst hS
    have hcm : st.current_round = st.max_rounds := by omega
    refine ⟨rfl, le_refl _, hinv, by omega, by omega, by omega, ?_, ⟨[], by simp⟩,
      fun req hreq => Or.inl hreq, fun _ => Or.inl ⟨hcm, by omega⟩,
      ⟨[], by simp⟩, ?_⟩
    · intro r h1 h2
      omega
    · rw [List.drop_length]
      trivial
  | succ n ih =>
    intro msgs st reqs out R S M hn hinv heq
    have hguard : st.can_make_more_calls = true := by
      simp only [ToolCallState.can_make_more_calls, decide_eq_true_eq]
      omega
    rw [runLoop.eq_def] at heq
    simp only [hguard, dite_true] at heq
    have hlt : st.current_round < st.max_rounds := by
      simpa [ToolCallState.can_make_more_calls] using hguard
    by_cases hstop : (g.client reqs.length).stop_reason = "tool_use"
    · rw [if_pos hstop] at heq
      split at heq
      · rename_i e2 st2 hr2
        simp only [Prod.mk.injEq] at heq
        obtain ⟨ho, hR, hS, hM⟩ := heq
        subst ho; subst hR; subst hS
        obtain ⟨hc2, hm2, recs, hrecs, hround⟩ :=
          execute_tool_round_error tm (g.client reqs.length) msgs st e2 st2 hr2
        exact LoopFacts_single g tools tm sys msgs st reqs _ st2 hlt hc2 hm2
          ⟨recs, hrecs⟩ (fun hf => by cases hf)
      · rename_i messages2 tools_executed st2 hr2
        obtain ⟨hc2, hm2, ⟨recs, hrecs, hlen, hround⟩, hex2, hexT, hexF⟩ :=
          execute_tool_round_ok tm (g.client reqs.length) msgs st messages2
            tools_executed st2 hr2
        by_cases hex : tools_executed = true
        · rw [if_pos hex] at heq
          have hinc1 : st2.increment_round.current_round = st2.current_round + 1 := rfl
          have hinc2 : st2.increment_round.max_rounds = st2.max_rounds := rfl
          have hinc3 : st2.increment_round.tool_calls_made = st2.tool_calls_made := rfl
          have hih := ih messages2 st2.increment_round _ out R S M
            (by rw [hinc1, hinc2]; omega) (by rw [hinc1, hinc2]; omega) heq
          obtain ⟨ihmax, ihge, ihle, ihlow, ihup, ihbound, ihlog, ihgrow, ihshape,
            ihfall, ihprefix, ihchain⟩ := hih
          rw [hinc2] at ihmax ihle
          rw [hinc1] at ihge ihlow ihup ihbound
          rw [hinc3] at ihgrow
          simp only [List.length_append, List.length_cons,
            List.length_nil] at ihlow ihup ihbound
          obtain ⟨results, hmsgs2, hids, hexecb⟩ := hexT hex
          have hnonempty : toolUseIds (g.client reqs.length).content ≠ [] := by
            intro hnil
            rw [hnil] at hex2
            simp [hex2] at hex
          refine ⟨by omega, by omega, by omega, by omega, by omega, by omega,
            ?_, ?_, ?_, ?_, ?_, ?_⟩
          · intro r h1 h2
            by_cases hr0 : r = st.current_round
            · subst hr0
              have hrecsne : recs ≠ [] := by
                intro hnil
                rw [hnil] at hlen
                exact hnonempty (List.length_eq_zero.mp hlen.symm)
              obtain ⟨rec0, hrec0⟩ := List.exists_mem_of_ne_nil recs hrecsne
              obtain ⟨recs2, hrecs2⟩ := ihgrow
              refine ⟨rec0, ?_, hround rec0 hrec0⟩
              rw [hrecs2, hrecs]
              exact List.mem_append_left _ (List.mem_append_right _ hrec0)
            · exact ihlog r (by omega) h2
          · obtain ⟨recs2, hrecs2⟩ := ihgrow
            exact ⟨recs ++ recs2, by rw [hrecs2, hrecs, List.append_assoc]⟩
          · intro req hreq
            rcases ihshape req hreq with h | h
            · rcases List.mem_append.mp h with h3 | h3
              · exact Or.inl h3
              · rw [List.mem_singleton] at h3
                subst h3
                exact Or.inr (api_params_shape g tools tm sys msgs)
            · obtain ⟨⟨tail, htail⟩, hrest⟩ := h
              refine Or.inr ⟨?_, hrest⟩
              rw [hmsgs2, List.append_assoc] at htail
              exact ⟨_, htail⟩
          · intro hf
            rcases ihfall hf with ⟨hl1, hl2⟩ | ⟨hl1, hl2⟩ <;>
              rw [hinc2] at hl1 <;>
              rw [hinc1] at hl2 <;>
              simp only [List.length_append, List.length_cons, List.length_nil] at hl2
            · exact Or.inl ⟨by omega, by omega⟩
            · exact Or.inr ⟨by omega, by omega⟩
          · obtain ⟨newreqs, hnew⟩ := ihprefix
            have htake : R.take reqs.length = reqs := by
              rw [hnew, List.append_assoc]
              exact List.take_left reqs _
            refine ⟨R.drop reqs.length, ?_⟩
            conv_lhs => rw [← List.take_append_drop reqs.length R]
            rw [htake]
          · obtain ⟨newreqs, hnew⟩ := ihprefix
            rw [hnew, List.append_assoc, List.drop_left, List.singleton_append]
            refine ⟨rfl, Or.inr ⟨results, st, st2, hexecb, ?_⟩⟩
            rw [hmsgs2] at ihchain
            rw [hnew, List.drop_left] at ihchain
            simpa using ihchain
        · rw [if_neg hex] at heq
          simp only [Prod.mk.injEq] at heq
          obtain ⟨ho, hR, hS, hM⟩ := heq
          subst ho; subst hR; subst hS
          have hexf : tools_executed = false := by simpa using hex
          obtain ⟨hm22, hst2⟩ := hexF hexf
          exact LoopFacts_single g tools tm sys msgs st reqs _ st2 hlt hc2 hm2
            ⟨recs, hrecs⟩ (fun _ => by omega)
    · rw [if_neg hstop] at heq
      split at heq
      · rename_i t hft
        simp only [Prod.mk.injEq] at heq
        obtain ⟨ho, hR, hS, hM⟩ := heq
        subst ho; subst hR; subst hS
        exact LoopFacts_single g tools tm sys msgs st reqs _ st hlt rfl rfl
          ⟨[], by simp⟩ (fun hf => by cases hf)
      · rename_i e2 hft
        simp only [Prod.mk.injEq] at heq
        obtain ⟨ho, hR, hS, hM⟩ := heq
        subst ho; subst hR; subst hS
        exact LoopFacts_single g tools tm sys msgs st reqs _ st hlt rfl rfl
          ⟨[], by simp⟩ (fun hf => by cases hf)

/-- When the loop short-circuits, generate_response returns that text and
nothing else happens. -/
theorem generate_response_short (g : AIGenerator) (query : String)
    (hist : Option String) (tools : Option (List ToolDef))
    (tm : Option ToolManager) (N : Nat) (t : String) (R : List Request)
    (S : ToolCallState) (M : List Message)
    (h : runLoop g tools tm (build_system_content hist)
      [{ role := "user", content := MessageContent.text query }]
      (ToolCallState.init N) [] = (.short_circuit t, R, S, M)) :
    g.generate_response query hist tools tm N = (.ok t, R, S, M) := by
  simp only [AIGenerator.generate_response, h]

/-- A failure left by the loop propagates out of generate_response
unchanged, with no further backend request. -/
theorem generate_response_failed (g : AIGenerator) (query : String)
    (hist : Option String) (tools : Option (List ToolDef))
    (tm : Option ToolManager) (N : Nat) (e : String) (R : List Request)
    (S : ToolCallState) (M : List Message)
    (h : runLoop g tools tm (build_system_content hist)
      [{ role := "user", content := MessageContent.text query }]
      (ToolCallState.init N) [] = (.failed e, R, S, M)) :
    g.generate_response query hist tools tm N = (.error e, R, S, M) := by
  simp only [AIGenerator.generate_response, h]

/-- When the loop falls through, generate_response issues exactly one
additional request, built from the accumulated messages and system text
and offering no tools, and returns the text of its response. -/
theorem generate_response_fall (g : AIGenerator) (query : String)
    (hist : Option String) (tools : Option (List ToolDef))
    (tm : Option ToolManager) (N : Nat) (R : List Request)
    (S : ToolCallState) (M : List Message)
    (h : runLoop g tools tm (build_system_content hist)
      [{ role := "user", content := MessageContent.text query }]
      (ToolCallState.init N) [] = (.fall_through, R, S, M)) :
    g.generate_response query hist tools tm N =
      (firstText (g.client R.length).content,
       R ++ [mkApiParams g M (build_system_content hist) none none], S, M) := by
  simp only [AIGenerator.generate_response, h]
  rfl

/-- C8: every call to add_tool_call appends exactly one invocation record
whose stored result_length equals the exact character length of the text
passed (and therefore 0 when the text is empty or absent), leaves the
round counters unchanged, and never fails, being a total function. -/
theorem add_tool_call_appends_record (st : ToolCallState) (tool_name : String)
    (params : Params) (result : Option String) :
    (st.add_tool_call tool_name params result).tool_calls_made =
      st.tool_calls_made ++
        [{ round := st.current_round, tool := tool_name, params := params,
           result_length := (match result with
                             | some r => r.length
                             | none => 0) }] ∧
    (st.add_tool_call tool_name params result).current_round = st.current_round ∧
    (st.add_tool_call tool_name params result).max_rounds = st.max_rounds := by
  refine ⟨?_, rfl, rfl⟩
  cases result with
  | none => rfl
  | some r =>
    by_cases hr : r = ""
    · subst hr
      simp [ToolCallState.add_tool_call]
    · simp [ToolCallState.add_tool_call, hr]

/-- C7: the Round Tracker starts at round 0, can_make_more_calls holds
exactly when current_round is below max_rounds, only increment_round
advances the counter and it advances it by exactly 1 (a tool round itself
leaves it unchanged), and throughout any run of the loop, and at the end
of generate_response, 0 <= current_round <= max_rounds holds. -/
theorem round_tracker_invariant :
    (∀ N : Nat, (ToolCallState.init N).current_round = 0 ∧
      (ToolCallState.init N).max_rounds = N) ∧
    (∀ s : ToolCallState, s.can_make_more_calls = true ↔
      s.current_round < s.max_rounds) ∧
    (∀ s : ToolCallState, s.increment_round.current_round = s.current_round + 1 ∧
      s.increment_round.max_rounds = s.max_rounds) ∧
    (∀ (tm : Option ToolManager) (response : Response) (messages : List Message)
      (st : ToolCallState) (r : Except String (List Message × Bool))
      (st2 : ToolCallState),
      _execute_tool_round tm response messages st = (r, st2) →
      st2.current_round = st.current_round) ∧
    (∀ (g : AIGenerator) (tools : Option (List ToolDef)) (tm : Option ToolManager)
      (sys : String) (msgs : List Message) (st : ToolCallState)
      (reqs : List Request) (out : LoopOutcome) (R : List Request)
      (S : ToolCallState) (M : List Message),
      runLoop g tools tm sys msgs st reqs = (out, R, S, M) →
      st.current_round ≤ st.max_rounds →
      st.current_round ≤ S.current_round ∧ S.current_round ≤ st.max_rounds ∧
        S.max_rounds = st.max_rounds) ∧
    (∀ (g : AIGenerator) (query : String) (hist : Option String)
      (tools : Option (List ToolDef)) (tm : Option ToolManager) (N : Nat),
      (g.generate_response query hist tools tm N).2.2.1.current_round ≤ N ∧
      (g.generate_response query hist tools tm N).2.2.1.max_rounds = N) := by
  refine ⟨fun N => ⟨rfl, rfl⟩, fun s => ?_, fun s => ⟨rfl, rfl⟩, ?_, ?_, ?_⟩
  · simp [ToolCallState.can_make_more_calls]
  · intro tm response messages st r st2 h
    rcases r with e | ⟨m2, ex⟩
    · exact (execute_tool_round_error tm response messages st e st2 h).1
    · exact (execute_tool_round_ok tm response messages st m2 ex st2 h).1
  · intro g tools tm sys msgs st reqs out R S M h hinv
    have hf := runLoop_facts g tools tm sys (st.max_rounds - st.current_round)
      msgs st reqs out R S M rfl hinv h
    exact ⟨hf.round_ge, hf.round_le, hf.max_eq⟩
  · intro g query hist tools tm N
    rcases hrun : runLoop g tools tm (build_system_content hist)
      [{ role := "user", content := MessageContent.text query }]
      (ToolCallState.init N) [] with ⟨out, R, S, M⟩
    have hf := runLoop_facts g tools tm (build_system_content hist) N
      [{ role := "user", content := MessageContent.text query }]
      (ToolCallState.init N) [] out R S M rfl (by simp [ToolCallState.init]) hrun
    have hS : (g.generate_response query hist tools tm N).2.2.1 = S := by
      cases out with
      | short_circuit t => rw [generate_response_short g query hist tools tm N t R S M hrun]
      | fall_through => rw [generate_response_fall g query hist tools tm N R S M hrun]
      | failed e => rw [generate_response_failed g query hist tools tm N e R S M hrun]
    rw [hS]
    exact ⟨hf.round_le, hf.max_eq⟩

/-- C7 witness: the invariant facts evaluated at concrete tracker
states. -/
theorem round_tracker_invariant_witness :
    (ToolCallState.init 2).current_round = 0 ∧
    ((ToolCallState.mk 2 1 []).can_make_more_calls = true ↔ 1 < 2) :=
  ⟨(round_tracker_invariant.1 2).1,
   round_tracker_invariant.2.1 (ToolCallState.mk 2 1 [])⟩

/-- C5: a round that executes at least one tool grows the transcript by
exactly 2 messages, the assistant message holding the model content
blocks followed by one user message of tool results, with one result per
tool-invocation block, tagged with the invocation ids in the same
order. -/
theorem tool_round_transcript_growth (tm : Option ToolManager)
    (response : Response) (messages : List Message) (st : ToolCallState)
    (msgs2 : List Message) (st2 : ToolCallState)
    (h : _execute_tool_round tm response messages st = (.ok (msgs2, true), st2)) :
    ∃ results : List ToolResult,
      msgs2 = messages ++
        [{ role := "assistant", content := MessageContent.blocks response.content },
         { role := "user", content := MessageContent.tool_results results }] ∧
      results.length = (toolUseIds response.content).length ∧
      results.map ToolResult.tool_use_id = toolUseIds response.content := by
  obtain ⟨-, -, -, -, hexT, -⟩ :=
    execute_tool_round_ok tm response messages st msgs2 true st2 h
  obtain ⟨results, hm, hids, -⟩ := hexT rfl
  exact ⟨results, hm, by rw [← hids, List.length_map], hids⟩

/-- C5 witness: one executed tool at a concrete input. -/
theorem tool_round_transcript_growth_witness :
    _execute_tool_round (some fun _ _ => Except.ok "res")
      { stop_reason := "tool_use",
        content := [ContentBlock.tool_use "id1" "search" []] }
      [] (ToolCallState.init 2) =
      (.ok ([{ role := "assistant",
               content := MessageContent.blocks
                 [ContentBlock.tool_use "id1" "search" []] },
             { role := "user",
               content := MessageContent.tool_results
                 [{ tool_use_id := "id1", content := "res" }] }], true),
       { max_rounds := 2, current_round := 0,
         tool_calls_made := [{ round := 0, tool := "search", params := [],
                               result_length := 3 }] }) ∧
    (∃ results : List ToolResult,
      ([{ role := "assistant",
          content := MessageContent.blocks
            [ContentBlock.tool_use "id1" "search" []] },
        { role := "user",
          content := MessageContent.tool_results
            [{ tool_use_id := "id1", content := "res" }] }] : List Message) =
        [] ++
        [{ role := "assistant",
           content := MessageContent.blocks
             [ContentBlock.tool_use "id1" "search" []] },
         { role := "user", content := MessageContent.tool_results results }] ∧
      results.length =
        (toolUseIds [ContentBlock.tool_use "id1" "search" []]).length ∧
      results.map ToolResult.tool_use_id =
        toolUseIds [ContentBlock.tool_use "id1" "search" []]) := by
  constructor
  · rfl
  · exact tool_round_transcript_growth (some fun _ _ => Except.ok "res")
      { stop_reason := "tool_use",
        content := [ContentBlock.tool_use "id1" "search" []] }
      [] (ToolCallState.init 2)
      [{ role := "assistant",
         content := MessageContent.blocks
           [ContentBlock.tool_use "id1" "search" []] },
       { role := "user",
         content := MessageContent.tool_results
           [{ tool_use_id := "id1", content := "res" }] }]
      { max_rounds := 2, current_round := 0,
        tool_calls_made := [{ round := 0, tool := "search", params := [],
                              result_length := 3 }] }
      (by rfl)

/-- C3: with a positive round budget, if the first backend response does
not ask for tools, exactly one backend call is made, no tool is ever
executed (the tracker is returned untouched, with an empty log), and that
response text is returned immediately with no forced final call. -/
theorem short_circuit_law (g : AIGenerator) (query : String)
    (hist : Option String) (tools : Option (List ToolDef))
    (tm : Option ToolManager) (N : Nat) (t : String) (bs : List ContentBlock)
    (hN : 1 ≤ N)
    (hstop : ¬(g.client 0).stop_reason = "tool_use")
    (hcontent : (g.client 0).content = ContentBlock.text t :: bs) :
    g.generate_response query hist tools tm N =
      (.ok t,
       [mkApiParams g [{ role := "user", content := MessageContent.text query }]
         (build_system_content hist)
         (if optListTruthy tools && tm.isSome then tools else none)
         (if optListTruthy tools && tm.isSome then some "auto" else none)],
       ToolCallState.init N,
       [{ role := "user", content := MessageContent.text query }]) := by
  have hrun : runLoop g tools tm (build_system_content hist)
      [{ role := "user", content := MessageContent.text query }]
      (ToolCallState.init N) [] =
      (.short_circuit t,
       [mkApiParams g [{ role := "user", content := MessageContent.text query }]
         (build_system_content hist)
         (if optListTruthy tools && tm.isSome then tools else none)
         (if optListTruthy tools && tm.isSome then some "auto" else none)],
       ToolCallState.init N,
       [{ role := "user", content := MessageContent.text query }]) := by
    rw [runLoop.eq_def]
    have hg : (ToolCallState.init N).can_make_more_calls = true := by
      simp only [ToolCallState.init, ToolCallState.can_make_more_calls,
        decide_eq_true_eq]
      omega
    simp only [hg, dite_true, List.length_nil]
    rw [if_neg hstop, hcontent]
    simp [firstText]
  exact generate_response_short g query hist tools tm N t _ _ _ hrun

/-- C3 witness: a concrete conversational run that stops naturally on the
first call. -/
theorem short_circuit_law_witness :
    (AIGenerator.mk "key" "model"
      (fun _ => { stop_reason := "end_turn",
                  content := [ContentBlock.text "hi"] })).generate_response
      "q" none none none 1 =
      (.ok "hi",
       [mkApiParams (AIGenerator.mk "key" "model"
          (fun _ => { stop_reason := "end_turn",
                      content := [ContentBlock.text "hi"] }))
         [{ role := "user", content := MessageContent.text "q" }]
         AIGenerator.SYSTEM_PROMPT none none],
       ToolCallState.init 1,
       [{ role := "user", content := MessageContent.text "q" }]) := by
  have h := short_circuit_law (AIGenerator.mk "key" "model"
      (fun _ => { stop_reason := "end_turn",
                  content := [ContentBlock.text "hi"] }))
    "q" none none none 1 "hi" [] (by decide) (by decide) rfl
  simpa [build_system_content, optStrTruthy, optListTruthy] using h

/-- C9: every request built inside the loop carries temperature 0, the
fixed output ceiling 800, the system content (assembled once per run:
the base instructions, with the prior conversation appended under a
delimited heading exactly when a non-empty history is present), and the
tool list with automatic selection mode exactly when tools and manager
were supplied, the tool-selection mode never being anything but
automatic; moreover the requests carry the full transcript so far: the
first request carries exactly the transcript the run started from, and
every later request carries exactly its predecessor transcript plus the
two messages of the round in between (the assistant message with that
response blocks and the user message with that round tool results). -/
theorem loop_request_shape :
    (∀ (g : AIGenerator) (tools : Option (List ToolDef)) (tm : Option ToolManager)
      (sys : String) (msgs : List Message) (st : ToolCallState)
      (out : LoopOutcome) (R : List Request) (S : ToolCallState)
      (M : List Message),
      runLoop g tools tm sys msgs st [] = (out, R, S, M) →
      st.current_round ≤ st.max_rounds →
      (∀ req ∈ R,
        req.model = g.model ∧ req.temperature = 0 ∧ req.max_tokens = 800 ∧
        req.system = sys ∧
        (((optListTruthy tools && tm.isSome) = true ∧ req.tools = tools ∧
           req.tool_choice = some "auto") ∨
         ((optListTruthy tools && tm.isSome) = false ∧ req.tools = none ∧
           req.tool_choice = none))) ∧
      TranscriptChain g tm 0 msgs R) ∧
    (∀ h : String, ¬h = "" →
      build_system_content (some h) =
        AIGenerator.SYSTEM_PROMPT ++ "\n\nPrevious conversation:\n" ++ h) ∧
    build_system_content none = AIGenerator.SYSTEM_PROMPT ∧
    build_system_content (some "") = AIGenerator.SYSTEM_PROMPT := by
  refine ⟨?_, ?_, rfl, rfl⟩
  · intro g tools tm sys msgs st out R S M hrun hinv
    have hf := runLoop_facts g tools tm sys (st.max_rounds - st.current_round)
      msgs st [] out R S M rfl hinv hrun
    constructor
    · intro req hreq
      rcases hf.reqs_shape req hreq with h | h
      · exact absurd h (List.not_mem_nil req)
      · exact h.2
    · have hchain := hf.trans_chain
      simpa using hchain
  · intro h hne
    simp [build_system_content, optStrTruthy, hne]

/-- C9 witness: a concrete one-round run and a concrete history; the
single request of the run carries exactly the seeded transcript. -/
theorem loop_request_shape_witness :
    (mkApiParams (AIGenerator.mk "k" "m"
        (fun _ => { stop_reason := "end_turn", content := [ContentBlock.text "a"] }))
      [{ role := "user", content := MessageContent.text "q" }] "sys"
      none none).messages =
      [{ role := "user", content := MessageContent.text "q" }] ∧
    (mkApiParams (AIGenerator.mk "k" "m"
        (fun _ => { stop_reason := "end_turn", content := [ContentBlock.text "a"] }))
      [{ role := "user", content := MessageContent.text "q" }] "sys"
      none none).temperature = 0 ∧
    build_system_content (some "H") =
      AIGenerator.SYSTEM_PROMPT ++ "\n\nPrevious conversation:\n" ++ "H" := by
  have hrun : runLoop (AIGenerator.mk "k" "m"
      (fun _ => { stop_reason := "end_turn", content := [ContentBlock.text "a"] }))
      none none "sys" [{ role := "user", content := MessageContent.text "q" }]
      (ToolCallState.init 1) [] =
      (.short_circuit "a",
       [mkApiParams (AIGenerator.mk "k" "m"
          (fun _ => { stop_reason := "end_turn", content := [ContentBlock.text "a"] }))
         [{ role := "user", content := MessageContent.text "q" }] "sys" none none],
       ToolCallState.init 1,
       [{ role := "user", content := MessageContent.text "q" }]) := by
    rw [runLoop.eq_def]
    simp [ToolCallState.init, ToolCallState.can_make_more_calls, firstText,
      optListTruthy]
  have h := loop_request_shape.1 _ none none "sys"
    [{ role := "user", content := MessageContent.text "q" }]
    (ToolCallState.init 1) _ _ _ _ hrun (by simp [ToolCallState.init])
  exact ⟨h.2.1, (h.1 _ (by simp)).2.1, loop_request_shape.2.1 "H" (by decide)⟩

/-- C10: when the both-or-neither precondition is violated (tools without
a manager, a manager without tools, or an empty tools list), no backend
request of the whole run carries a tool list or a tool-selection mode,
exactly as if neither had been supplied. -/
theorem no_tools_offered_when_unpaired (g : AIGenerator) (query : String)
    (hist : Option String) (tools : Option (List ToolDef))
    (tm : Option ToolManager) (N : Nat)
    (hmis : tm = none ∨ tools = none ∨ tools = some []) :
    ∀ req ∈ (g.generate_response query hist tools tm N).2.1,
      req.tools = none ∧ req.tool_choice = none := by
  have hoff : (optListTruthy tools && tm.isSome) = false := by
    rcases hmis with h | h | h <;> subst h <;> simp [optListTruthy]
  rcases hrun : runLoop g tools tm (build_system_content hist)
    [{ role := "user", content := MessageContent.text query }]
    (ToolCallState.init N) [] with ⟨out, R, S, M⟩
  have hf := runLoop_facts g tools tm (build_system_content hist) N
    [{ role := "user", content := MessageContent.text query }]
    (ToolCallState.init N) [] out R S M rfl (by simp [ToolCallState.init]) hrun
  have hloop : ∀ req ∈ R, req.tools = none ∧ req.tool_choice = none := by
    intro req hreq
    rcases hf.reqs_shape req hreq with h | h
    · exact absurd h (List.not_mem_nil req)
    · rcases h.2.2.2.2.2 with ⟨hc, -, -⟩ | ⟨-, ht, hc⟩
      · rw [hoff] at hc
        cases hc
      · exact ⟨ht, hc⟩
  cases out with
  | short_circuit t =>
    rw [generate_response_short g query hist tools tm N t R S M hrun]
    exact hloop
  | failed e =>
    rw [generate_response_failed g query hist tools tm N e R S M hrun]
    exact hloop
  | fall_through =>
    rw [generate_response_fall g query hist tools tm N R S M hrun]
    intro req hreq
    rcases List.mem_append.mp hreq with h | h
    · exact hloop req h
    · rw [List.mem_singleton] at h
      subst h
      exact ⟨rfl, rfl⟩

/-- C10 witness: tools supplied with no manager, on a concrete run. -/
theorem no_tools_offered_when_unpaired_witness :
    (mkApiParams (AIGenerator.mk "k" "m"
        (fun _ => { stop_reason := "end_turn", content := [ContentBlock.text "a"] }))
      [{ role := "user", content := MessageContent.text "q" }]
      AIGenerator.SYSTEM_PROMPT none none).tools = none ∧
    (mkApiParams (AIGenerator.mk "k" "m"
        (fun _ => { stop_reason := "end_turn", content := [ContentBlock.text "a"] }))
      [{ role := "user", content := MessageContent.text "q" }]
      AIGenerator.SYSTEM_PROMPT none none).tool_choice = none := by
  have hrun : runLoop (AIGenerator.mk "k" "m"
      (fun _ => { stop_reason := "end_turn", content := [ContentBlock.text "a"] }))
      (some [{ name := "t", description := "d" }]) none
      (build_system_content none)
      [{ role := "user", content := MessageContent.text "q" }]
      (ToolCallState.init 1) [] =
      (.short_circuit "a",
       [mkApiParams (AIGenerator.mk "k" "m"
          (fun _ => { stop_reason := "end_turn", content := [ContentBlock.text "a"] }))
         [{ role := "user", content := MessageContent.text "q" }]
         (build_system_content none) none none],
       ToolCallState.init 1,
       [{ role := "user", content := MessageContent.text "q" }]) := by
    rw [runLoop.eq_def]
    simp [ToolCallState.init, ToolCallState.can_make_more_calls, firstText,
      optListTruthy]
  have heval := generate_response_short (AIGenerator.mk "k" "m"
      (fun _ => { stop_reason := "end_turn", content := [ContentBlock.text "a"] }))
    "q" none (some [{ name := "t", description := "d" }]) none 1 "a" _ _ _ hrun
  refine no_tools_offered_when_unpaired (AIGenerator.mk "k" "m"
      (fun _ => { stop_reason := "end_turn", content := [ContentBlock.text "a"] }))
    "q" none (some [{ name := "t", description := "d" }]) none 1
    (Or.inl rfl) _ ?_
  rw [heval]
  simp [build_system_content, optStrTruthy]

/-- C6: when the loop exits with the ceiling reached rather than via the
short-circuit, exactly one additional backend request is issued, built
from the accumulated transcript and system context, carrying no tool
list and no tool-selection mode, and its text is returned. -/
theorem final_call_without_tools (g : AIGenerator) (query : String)
    (hist : Option String) (tools : Option (List ToolDef))
    (tm : Option ToolManager) (N : Nat) (R : List Request) (S : ToolCallState)
    (M : List Message) (t : String) (bs : List ContentBlock)
    (hrun : runLoop g tools tm (build_system_content hist)
      [{ role := "user", content := MessageContent.text query }]
      (ToolCallState.init N) [] = (.fall_through, R, S, M))
    (hceil : S.current_round = S.max_rounds)
    (hcontent : (g.client R.length).content = ContentBlock.text t :: bs) :
    g.generate_response query hist tools tm N =
      (.ok t, R ++ [mkApiParams g M (build_system_content hist) none none], S, M) ∧
    (mkApiParams g M (build_system_content hist) none none).tools = none ∧
    (mkApiParams g M (build_system_content hist) none none).tool_choice = none ∧
    (mkApiParams g M (build_system_content hist) none none).messages = M ∧
    (mkApiParams g M (build_system_content hist) none none).system =
      build_system_content hist ∧
    (mkApiParams g M (build_system_content hist) none none).temperature = 0 ∧
    (mkApiParams g M (build_system_content hist) none none).max_tokens = 800 := by
  refine ⟨?_, rfl, rfl, rfl, rfl, rfl, rfl⟩
  rw [generate_response_fall g query hist tools tm N R S M hrun, hcontent]
  rfl

/-- C6 witness: a zero-budget run reaches the ceiling immediately and is
answered by the forced tool-free call. -/
theorem final_call_without_tools_witness :
    (AIGenerator.mk "k" "m"
      (fun _ => { stop_reason := "end_turn",
                  content := [ContentBlock.text "fin"] })).generate_response
      "q" none none none 0 =
      (.ok "fin",
       [] ++ [mkApiParams (AIGenerator.mk "k" "m"
          (fun _ => { stop_reason := "end_turn",
                      content := [ContentBlock.text "fin"] }))
         [{ role := "user", content := MessageContent.text "q" }]
         (build_system_content none) none none],
       ToolCallState.init 0,
       [{ role := "user", content := MessageContent.text "q" }]) := by
  have h := final_call_without_tools (AIGenerator.mk "k" "m"
      (fun _ => { stop_reason := "end_turn",
                  content := [ContentBlock.text "fin"] }))
    "q" none none none 0 [] (ToolCallState.init 0)
    [{ role := "user", content := MessageContent.text "q" }] "fin" []
    (by rw [runLoop.eq_def]
        simp [ToolCallState.init, ToolCallState.can_make_more_calls])
    rfl rfl
  exact h.1

/-- C4: if a tool invocation of a round raises, the failure propagates
out of the loop and out of generate_response uncaught, that round issues
its one request and then nothing further (in particular no synthesis
request is added), the invocations after the failing one are not
executed, and the invocation log holds exactly the records of the
successful invocations made before the failure, none for the failed
one. -/
theorem tool_failure_propagates :
    (∀ (g : AIGenerator) (tools : Option (List ToolDef)) (tm : Option ToolManager)
      (sys : String) (msgs : List Message) (st : ToolCallState)
      (reqs : List Request) (pre post : List ContentBlock) (bid bname : String)
      (binput : Params) (e : String) (res0 : List ToolResult) (ex0 : Bool)
      (st0 : ToolCallState),
      st.can_make_more_calls = true →
      (g.client reqs.length).stop_reason = "tool_use" →
      (g.client reqs.length).content =
        pre ++ ContentBlock.tool_use bid bname binput :: post →
      execBlocks tm pre st [] false = (.ok (res0, ex0), st0) →
      callExecuteTool tm bname binput = .error e →
      (runLoop g tools tm sys msgs st reqs).1 = .failed e ∧
      (runLoop g tools tm sys msgs st reqs).2.1.length = reqs.length + 1 ∧
      (runLoop g tools tm sys msgs st reqs).2.2.1 = st0 ∧
      st0.tool_calls_made.length =
        st.tool_calls_made.length + (toolUseIds pre).length) ∧
    (∀ (g : AIGenerator) (query : String) (hist : Option String)
      (tools : Option (List ToolDef)) (tm : Option ToolManager) (N : Nat)
      (e : String) (R : List Request) (S : ToolCallState) (M : List Message),
      runLoop g tools tm (build_system_content hist)
        [{ role := "user", content := MessageContent.text query }]
        (ToolCallState.init N) [] = (.failed e, R, S, M) →
      g.generate_response query hist tools tm N = (.error e, R, S, M)) := by
  constructor
  · intro g tools tm sys msgs st reqs pre post bid bname binput e res0 ex0 st0
      hguard hstop hcontent hpre herr
    have hexec : execBlocks tm ((g.client reqs.length).content) st [] false =
        (.error e, st0) := by
      rw [hcontent, execBlocks_append, hpre]
      simp only [execBlocks, herr]
    have hround : _execute_tool_round tm (g.client reqs.length) msgs st =
        (.error e, st0) := by
      unfold _execute_tool_round
      simp only [hexec]
    have hlen0 : st0.tool_calls_made.length =
        st.tool_calls_made.length + (toolUseIds pre).length := by
      obtain ⟨-, -, -, ⟨recs, hrecs, hlen, -⟩, -⟩ :=
        execBlocks_ok tm pre st [] false res0 ex0 st0 hpre
      rw [hrecs]
      simp [hlen]
    have hloop : runLoop g tools tm sys msgs st reqs =
        (.failed e,
         reqs ++ [mkApiParams g msgs sys
           (if optListTruthy tools && tm.isSome then tools else none)
           (if optListTruthy tools && tm.isSome then some "auto" else none)],
         st0, msgs) := by
      rw [runLoop.eq_def]
      simp only [hguard, dite_true]
      rw [if_pos hstop]
      split
      · rename_i e2 st2 hr2
        rw [hround] at hr2
        simp only [Prod.mk.injEq, Except.error.injEq] at hr2
        obtain ⟨he, hst⟩ := hr2
        subst he; subst hst
        rfl
      · rename_i m2 ex2 st2 hr2
        rw [hround] at hr2
        simp at hr2
    rw [hloop]
    exact ⟨rfl, by simp, rfl, hlen0⟩
  · intro g query hist tools tm N e R S M h
    exact generate_response_failed g query hist tools tm N e R S M h

/-- C4 witness: a single failing tool invocation at a concrete input. -/
theorem tool_failure_propagates_witness :
    (runLoop (AIGenerator.mk "k" "m"
        (fun _ => { stop_reason := "tool_use",
                    content := [ContentBlock.tool_use "id1" "boomtool" []] }))
      none (some fun _ _ => Except.error "boom")
      "sys" [{ role := "user", content := MessageContent.text "q" }]
      (ToolCallState.init 1) []).1 = .failed "boom" ∧
    (runLoop (AIGenerator.mk "k" "m"
        (fun _ => { stop_reason := "tool_use",
                    content := [ContentBlock.tool_use "id1" "boomtool" []] }))
      none (some fun _ _ => Except.error "boom")
      "sys" [{ role := "user", content := MessageContent.text "q" }]
      (ToolCallState.init 1) []).2.2.1 = ToolCallState.init 1 := by
  have h := (tool_failure_propagates.1 (AIGenerator.mk "k" "m"
      (fun _ => { stop_reason := "tool_use",
                  content := [ContentBlock.tool_use "id1" "boomtool" []] }))
    none (some fun _ _ => Except.error "boom")
    "sys" [{ role := "user", content := MessageContent.text "q" }]
    (ToolCallState.init 1) [] [] [] "id1" "boomtool" [] "boom" [] false
    (ToolCallState.init 1) (by decide) rfl rfl (by rfl) rfl)
  exact ⟨h.1, h.2.2.1⟩

/-- With no tool_use block among the content blocks, the block loop does
nothing: no result, no record, flag unchanged. -/
theorem execBlocks_no_tools (tm : Option ToolManager) :
    ∀ (bs : List ContentBlock) (st : ToolCallState) (acc : List ToolResult)
      (ex : Bool), toolUseIds bs = [] →
      execBlocks tm bs st acc ex = (.ok (acc, ex), st) := by
  intro bs
  induction bs with
  | nil => intro st acc ex _; rfl
  | cons b rest ih =>
    intro st acc ex hids
    cases b with
    | text t =>
      rw [execBlocks]
      exact ih st acc ex (by simpa [toolUseIds] using hids)
    | tool_use id name input => simp [toolUseIds] at hids

/-- C1 as amended: when a response has stop condition tool_use but zero
tool-invocation blocks, the loop does exit at once without advancing the
round counter or recording anything (the tracker is returned as it was),
but the operation is not aborted: it falls through, and on fall-through
generate_response still issues the final tool-free synthesis request and
returns the text of its response. -/
theorem zero_tool_blocks_breaks_then_synthesizes :
    (∀ (g : AIGenerator) (tools : Option (List ToolDef)) (tm : Option ToolManager)
      (sys : String) (msgs : List Message) (st : ToolCallState)
      (reqs : List Request),
      st.can_make_more_calls = true →
      (g.client reqs.length).stop_reason = "tool_use" →
      toolUseIds (g.client reqs.length).content = [] →
      runLoop g tools tm sys msgs st reqs =
        (.fall_through,
         reqs ++ [mkApiParams g msgs sys
           (if optListTruthy tools && tm.isSome then tools else none)
           (if optListTruthy tools && tm.isSome then some "auto" else none)],
         st,
         msgs ++ [{ role := "assistant",
                    content := MessageContent.blocks (g.client reqs.length).content }])) ∧
    (∀ (g : AIGenerator) (query : String) (hist : Option String)
      (tools : Option (List ToolDef)) (tm : Option ToolManager) (N : Nat)
      (R : List Request) (S : ToolCallState) (M : List Message),
      runLoop g tools tm (build_system_content hist)
        [{ role := "user", content := MessageContent.text query }]
        (ToolCallState.init N) [] = (.fall_through, R, S, M) →
      g.generate_response query hist tools tm N =
        (firstText (g.client R.length).content,
         R ++ [mkApiParams g M (build_system_content hist) none none], S, M)) := by
  constructor
  · intro g tools tm sys msgs st reqs hguard hstop hids
    have hround : _execute_tool_round tm (g.client reqs.length) msgs st =
        (.ok (msgs ++ [{ role := "assistant",
                         content := MessageContent.blocks
                           (g.client reqs.length).content }], false),
         st) := by
      unfold _execute_tool_round
      rw [execBlocks_no_tools tm _ st [] false hids]
      simp
    rw [runLoop.eq_def]
    simp only [hguard, dite_true]
    rw [if_pos hstop]
    split
    · rename_i e2 st2 hr2
      rw [hround] at hr2
      simp at hr2
    · rename_i m2 ex2 st2 hr2
      rw [hround] at hr2
      simp only [Prod.mk.injEq, Except.ok.injEq] at hr2
      obtain ⟨⟨hm2, hex2⟩, hst2⟩ := hr2
      subst hm2; subst hex2; subst hst2
      rfl
  · intro g query hist tools tm N R S M h
    exact generate_response_fall g query hist tools tm N R S M h

/-- C1 counterexample: a concrete run in which the first response says
tool_use but carries zero tool-invocation blocks; the operation does not
abort: it makes a second, synthesis backend call and returns its text as
the answer (while the round counter indeed stays 0). -/
theorem zero_tool_blocks_counterexample :
    ((AIGenerator.mk "k" "m"
        (fun i => if i = 0
          then { stop_reason := "tool_use", content := [ContentBlock.text "stray"] }
          else { stop_reason := "end_turn",
                 content := [ContentBlock.text "synth"] })).generate_response
      "q" none (some [{ name := "search", description := "d" }])
      (some fun _ _ => Except.ok "r") 2).1 = Except.ok "synth" ∧
    ((AIGenerator.mk "k" "m"
        (fun i => if i = 0
          then { stop_reason := "tool_use", content := [ContentBlock.text "stray"] }
          else { stop_reason := "end_turn",
                 content := [ContentBlock.text "synth"] })).generate_response
      "q" none (some [{ name := "search", description := "d" }])
      (some fun _ _ => Except.ok "r") 2).2.1.length = 2 ∧
    ((AIGenerator.mk "k" "m"
        (fun i => if i = 0
          then { stop_reason := "tool_use", content := [ContentBlock.text "stray"] }
          else { stop_reason := "end_turn",
                 content := [ContentBlock.text "synth"] })).generate_response
      "q" none (some [{ name := "search", description := "d" }])
      (some fun _ _ => Except.ok "r") 2).2.2.1.current_round = 0 ∧
    ((AIGenerator.mk "k" "m"
        (fun i => if i = 0
          then { stop_reason := "tool_use", content := [ContentBlock.text "stray"] }
          else { stop_reason := "end_turn",
                 content := [ContentBlock.text "synth"] })).generate_response
      "q" none (some [{ name := "search", description := "d" }])
      (some fun _ _ => Except.ok "r") 2).2.2.1.tool_calls_made = [] := by
  have hrun : runLoop (AIGenerator.mk "k" "m"
      (fun i => if i = 0
        then { stop_reason := "tool_use", content := [ContentBlock.text "stray"] }
        else { stop_reason := "end_turn",
               content := [ContentBlock.text "synth"] }))
      (some [{ name := "search", description := "d" }])
      (some fun _ _ => Except.ok "r") (build_system_content none)
      [{ role := "user", content := MessageContent.text "q" }]
      (ToolCallState.init 2) [] =
      (.fall_through,
       [mkApiParams (AIGenerator.mk "k" "m"
          (fun i => if i = 0
            then { stop_reason := "tool_use", content := [ContentBlock.text "stray"] }
            else { stop_reason := "end_turn",
                   content := [ContentBlock.text "synth"] }))
         [{ role := "user", content := MessageContent.text "q" }]
         (build_system_content none)
         (some [{ name := "search", description := "d" }]) (some "auto")],
       ToolCallState.init 2,
       [{ role := "user", content := MessageContent.text "q" },
        { role := "assistant",
          content := MessageContent.blocks [ContentBlock.text "stray"] }]) := by
    rw [runLoop.eq_def]
    simp [ToolCallState.init, ToolCallState.can_make_more_calls, optListTruthy,
      _execute_tool_round, execBlocks]
  rw [generate_response_fall _ "q" none _ _ 2 _ _ _ hrun]
  simp [firstText, ToolCallState.init]

/-- C1 witness: the amended behaviour at a concrete input. -/
theorem zero_tool_blocks_witness :
    runLoop (AIGenerator.mk "k" "m"
      (fun _ => { stop_reason := "tool_use", content := [ContentBlock.text "x"] }))
      none none "sys"
      [{ role := "user", content := MessageContent.text "q" }]
      (ToolCallState.init 3) [] =
      (.fall_through,
       [] ++ [mkApiParams (AIGenerator.mk "k" "m"
          (fun _ => { stop_reason := "tool_use",
                      content := [ContentBlock.text "x"] }))
         [{ role := "user", content := MessageContent.text "q" }] "sys"
         (if optListTruthy none && (none : Option ToolManager).isSome
          then none else none)
         (if optListTruthy none && (none : Option ToolManager).isSome
          then some "auto" else none)],
       ToolCallState.init 3,
       [{ role := "user", content := MessageContent.text "q" }] ++
       [{ role := "assistant",
          content := MessageContent.blocks [ContentBlock.text "x"] }]) :=
  zero_tool_blocks_breaks_then_synthesizes.1 (AIGenerator.mk "k" "m"
      (fun _ => { stop_reason := "tool_use", content := [ContentBlock.text "x"] }))
    none none "sys" [{ role := "user", content := MessageContent.text "q" }]
    (ToolCallState.init 3) [] (by decide) rfl rfl

/-- C2 as amended: for every round budget N and backend behaviour, at
most N + 1 backend calls are made; and when exactly N + 1 are made, every
one of the first N - 1 rounds resulted in at least one recorded tool
invocation (the last round before the forced synthesis call may instead
have been a tool_use response carrying zero tool-invocation blocks, which
breaks the loop but still synthesizes). -/
theorem backend_call_bound (g : AIGenerator) (query : String)
    (hist : Option String) (tools : Option (List ToolDef))
    (tm : Option ToolManager) (N : Nat) :
    (g.generate_response query hist tools tm N).2.1.length ≤ N + 1 ∧
    ((g.generate_response query hist tools tm N).2.1.length = N + 1 →
      ∀ r, r + 1 < N →
        ∃ rec ∈ (g.generate_response query hist tools tm N).2.2.1.tool_calls_made,
          rec.round = r) := by
  rcases hrun : runLoop g tools tm (build_system_content hist)
    [{ role := "user", content := MessageContent.text query }]
    (ToolCallState.init N) [] with ⟨out, R, S, M⟩
  have hf := runLoop_facts g tools tm (build_system_content hist) N
    [{ role := "user", content := MessageContent.text query }]
    (ToolCallState.init N) [] out R S M rfl (by simp [ToolCallState.init]) hrun
  have hb : R.length ≤ N := by
    have h := hf.trace_bound
    simpa [ToolCallState.init] using h
  have hup : R.length ≤ S.current_round + 1 := by
    have h := hf.trace_upper
    simpa [ToolCallState.init] using h
  have hle : S.current_round ≤ N := by
    have h := hf.round_le
    simpa [ToolCallState.init] using h
  cases out with
  | short_circuit t =>
    rw [generate_response_short g query hist tools tm N t R S M hrun]
    refine ⟨by simpa using Nat.le_succ_of_le hb, ?_⟩
    intro habs r hr
    simp only at habs
    omega
  | failed e =>
    rw [generate_response_failed g query hist tools tm N e R S M hrun]
    refine ⟨by simpa using Nat.le_succ_of_le hb, ?_⟩
    intro habs r hr
    simp only at habs
    omega
  | fall_through =>
    rw [generate_response_fall g query hist tools tm N R S M hrun]
    simp only [List.length_append, List.length_cons, List.length_nil]
    refine ⟨by omega, ?_⟩
    intro habs r hr
    have hcur : N - 1 ≤ S.current_round := by
      rcases hf.fall_shape rfl with ⟨hc, hl⟩ | ⟨hc, hl⟩ <;>
        simp only [ToolCallState.init, List.length_nil] at hc hl <;> omega
    exact hf.rounds_logged r (by simp [ToolCallState.init]) (by omega)

/-- C2 counterexample: with budget N = 1 and a first response that says
tool_use but carries zero tool-invocation blocks, exactly N + 1 = 2
backend calls are made although the single round produced no tool
invocation at all, so being at N + 1 calls does not imply that every one
of the first N rounds invoked a tool. -/
theorem backend_call_bound_counterexample :
    ((AIGenerator.mk "k" "m"
        (fun i => if i = 0
          then { stop_reason := "tool_use", content := [ContentBlock.text "s1"] }
          else { stop_reason := "end_turn",
                 content := [ContentBlock.text "s2"] })).generate_response
      "q" none (some [{ name := "search", description := "d" }])
      (some fun _ _ => Except.ok "r") 1).2.1.length = 1 + 1 ∧
    ¬(((AIGenerator.mk "k" "m"
        (fun i => if i = 0
          then { stop_reason := "tool_use", content := [ContentBlock.text "s1"] }
          else { stop_reason := "end_turn",
                 content := [ContentBlock.text "s2"] })).generate_response
      "q" none (some [{ name := "search", description := "d" }])
      (some fun _ _ => Except.ok "r") 1).2.1.length = 1 + 1 →
      ∀ r < 1, ∃ rec ∈ ((AIGenerator.mk "k" "m"
        (fun i => if i = 0
          then { stop_reason := "tool_use", content := [ContentBlock.text "s1"] }
          else { stop_reason := "end_turn",
                 content := [ContentBlock.text "s2"] })).generate_response
      "q" none (some [{ name := "search", description := "d" }])
      (some fun _ _ => Except.ok "r") 1).2.2.1.tool_calls_made,
        rec.round = r) := by
  have hrun : runLoop (AIGenerator.mk "k" "m"
      (fun i => if i = 0
        then { stop_reason := "tool_use", content := [ContentBlock.text "s1"] }
        else { stop_reason := "end_turn",
               content := [ContentBlock.text "s2"] }))
      (some [{ name := "search", description := "d" }])
      (some fun _ _ => Except.ok "r") (build_system_content none)
      [{ role := "user", content := MessageContent.text "q" }]
      (ToolCallState.init 1) [] =
      (.fall_through,
       [mkApiParams (AIGenerator.mk "k" "m"
          (fun i => if i = 0
            then { stop_reason := "tool_use", content := [ContentBlock.text "s1"] }
            else { stop_reason := "end_turn",
                   content := [ContentBlock.text "s2"] }))
         [{ role := "user", content := MessageContent.text "q" }]
         (build_system_content none)
         (some [{ name := "search", description := "d" }]) (some "auto")],
       ToolCallState.init 1,
       [{ role := "user", content := MessageContent.text "q" },
        { role := "assistant",
          content := MessageContent.blocks [ContentBlock.text "s1"] }]) := by
    rw [runLoop.eq_def]
    simp [ToolCallState.init, ToolCallState.can_make_more_calls, optListTruthy,
      _execute_tool_round, execBlocks]
  rw [generate_response_fall _ "q" none _ _ 1 _ _ _ hrun]
  refine ⟨by simp, ?_⟩
  intro h
  obtain ⟨rec, hmem, -⟩ := h (by simp) 0 (by omega)
  simp [ToolCallState.init] at hmem

/-- C2 witness: the call bound evaluated on a concrete run. -/
theorem backend_call_bound_witness :
    ((AIGenerator.mk "k" "m"
        (fun _ => { stop_reason := "end_turn",
                    content := [ContentBlock.text "w"] })).generate_response
      "q" none none none 2).2.1.length ≤ 2 + 1 :=
  (backend_call_bound (AIGenerator.mk "k" "m"
      (fun _ => { stop_reason := "end_turn",
                  content := [ContentBlock.text "w"] }))
    "q" none none none 2).1
